import Mathlib

/-!
Verification development for the `OrderStatusManager` class of `src/app.py`
(the class in `src/app1.py` is textually identical).

Modelling decisions, all traceable to the source:
  - The three Python dictionaries (`order_statuses`, `order_price`, `order_shipped`)
    and the copy `original_prices` become association lists keyed by the order id;
    Python dict assignment (update in place, insert at the end when absent) is `dictSet`.
  - Prices are kept as the strings the source stores ("500$", "77.42$", ...).
    `parsePrice` mirrors `float(s.rstrip("$"))` on the integer / fixed-point numeral
    shapes that occur in the store; `format2` mirrors the penalty branch
    `f"{new_price:.2f}$"`.  Arithmetic is exact rational arithmetic, with rounding
    to cents fixed as round-half-up, while Python computes in binary doubles and
    `.2f` rounds the double to nearest.  Away from exact half-cent ties the two
    agree exactly: exact penalty values lie on the 1/10000-dollar grid, so a
    non-tie value is at least 1/2000 from a rounding boundary, far beyond double
    roundoff.  At an exact half-cent tie, however, the cent the source stores is
    decided by IEEE-754 roundoff and follows no exact-decimal tie rule — along the
    orbits of the seeded prices, 63.25$ steps to 61.98$ (the half-even choice),
    44.25$ steps to 43.37$ (the half-up choice), and 0.75$ steps to 0.73$ (neither
    rule).  The half-up convention here is therefore a modelling choice; every
    claim-level theorem below either touches only non-tie states, where model and
    source agree string-for-string, or is independent of the tie direction.  A tie
    can occur only when the rounded price's cents are congruent to 25 mod 50.
  - Ship dates are stored already parsed, as calendar day ordinals (day-of-2025:
    "22/2/25" is day 53, "24/2/25" is day 55, "2/2/25" is day 33); the map is never
    mutated by any operation, so constant-folding `strptime` loses nothing.
    `datetime.date.today()` becomes an explicit `today : Int` argument in the same
    day numbering.
  - `initiate_return` can raise in Python (`KeyError` on direct indexing, `ValueError`
    from `float`), so its embedding returns an `Option`; `none` is an escaped
    exception.  The other three operations only use `.get` and cannot raise.
-/

/-- The decimal digit character with value `n` (for `n < 10`); 48 is the code of zero. -/
def digitChar (n : ℕ) : Char := Char.ofNat (48 + n)

/-- Numeric value of a decimal digit character, `none` on any other character. -/
def charVal (c : Char) : Option ℕ :=
  if 48 ≤ c.toNat ∧ c.toNat ≤ 57 then some (c.toNat - 48) else none

/-- Left-to-right accumulation of decimal digits; fails on a non-digit. -/
def parseDigits : List Char → ℕ → Option ℕ
  | [], acc => some acc
  | c :: cs, acc =>
    match charVal c with
    | some d => parseDigits cs (10 * acc + d)
    | none => none

/-- A non-empty all-digit string of characters, as a natural number. -/
def parseNat (cs : List Char) : Option ℕ :=
  match cs with
  | [] => none
  | _ :: _ => parseDigits cs 0

/-- Decimal rendering of a natural number; fuel-indexed so it reduces structurally.
    Any fuel of at least the digit count gives the standard most-significant-first
    rendering. -/
def renderNatAux : ℕ → ℕ → List Char
  | 0, _ => []
  | fuel + 1, n =>
    if n < 10 then [digitChar n]
    else renderNatAux fuel (n / 10) ++ [digitChar (n % 10)]

/-- Decimal rendering of a natural number (`n + 1` units of fuel always suffice). -/
def renderNat (n : ℕ) : List Char := renderNatAux (n + 1) n

/-- Split a character list at its first dot, mirroring how a decimal numeral
    decomposes into integer and fractional part. -/
def splitDot : List Char → Option (List Char × List Char)
  | [] => none
  | c :: cs =>
    if c = '.' then some ([], cs)
    else (splitDot cs).map (fun p => (c :: p.1, p.2))

/-- Mirrors `s.rstrip("$")`: drop every trailing dollar sign. -/
def stripDollar (cs : List Char) : List Char :=
  (cs.reverse.dropWhile (fun c => c = '$')).reverse

/-- Mirrors `float(s.rstrip("$"))` on the numeral shapes the store ever holds:
    an optional-fraction decimal numeral followed by dollar signs.  (Python `float`
    also accepts signs, exponents and empty parts; no such string is ever stored,
    and on them this parser fails where `float` may succeed, which is on the safe
    side for every property proved below.) -/
def parsePrice (s : String) : Option ℚ :=
  let cs := stripDollar s.data
  match splitDot cs with
  | none => (parseNat cs).map (fun n => (n : ℚ))
  | some (a, b) =>
    if b.any (fun c => c = '.') then none
    else
      match parseNat a, parseNat b with
      | some i, some f => some ((i : ℚ) + (f : ℚ) / 10 ^ b.length)
      | _, _ => none

/-- Two-digit rendering of a remainder of cents (`r < 100`). -/
def pad2 (r : ℕ) : List Char :=
  if r < 10 then '0' :: renderNat r else renderNat r

/-- Round-to-nearest on an exact rational, half-up at ties; `roundQ_eq_round` below
    shows it is the standard `round`.  The half-up tie convention is a modelling
    choice: at exact half-cent ties the source's double arithmetic follows no exact
    rule (see the file header). -/
def roundQ (q : ℚ) : ℤ := Rat.floor (q + 1 / 2)

/-- Mirrors `f"{x:.2f}$"`: round to a whole number of cents and print with exactly
    two decimals.  Rounding is round-half-up on exact rationals; the source rounds
    a binary double, which agrees at every non-tie value but is roundoff-determined
    at exact half-cent ties (see the file header).  The negative branch is included
    for totality only; no reachable price is negative. -/
def format2 (q : ℚ) : String :=
  let c : ℤ := roundQ (q * 100)
  if c < 0 then ⟨'-' :: (renderNat (c.natAbs / 100) ++ '.' :: pad2 (c.natAbs % 100) ++ ['$'])⟩
  else ⟨renderNat (c.toNat / 100) ++ '.' :: pad2 (c.toNat % 100) ++ ['$']⟩

/-- Python `d.get(k)` on an association list standing for a dict (keys are unique in
    every store that occurs, so first-match lookup is dict lookup). -/
def dget {α : Type} (l : List (String × α)) (k : String) : Option α :=
  match l with
  | [] => none
  | p :: t => if p.1 == k then some p.2 else dget t k

/-- Python dict assignment `d[k] = v`: update the key in place when present, append
    at the end otherwise (dicts keep insertion order). -/
def dictSet {α : Type} (l : List (String × α)) (k : String) (v : α) : List (String × α) :=
  match l with
  | [] => [(k, v)]
  | p :: t => if p.1 == k then (k, v) :: t else p :: dictSet t k v

/-- The mutable state of `OrderStatusManager` (`src/app.py`, lines 12-29). -/
structure OrderStatusManager where
  order_statuses : List (String × String)
  order_price : List (String × String)
  order_shipped : List (String × Int)
  original_prices : List (String × String)
deriving DecidableEq, Repr

/-- The hard-coded membership list in `initiate_return`
    (`if order_id in ["12345", "67890", "11223"]`). -/
def knownIds : List String := ["12345", "67890", "11223"]

/-- The store as seeded by `OrderStatusManager.__init__`. -/
def initialManager : OrderStatusManager where
  order_statuses := [("12345", "Shipped"), ("67890", "Processing"), ("11223", "Delivered")]
  order_price := [("12345", "500$"), ("67890", "79$"), ("11223", "900$")]
  order_shipped := [("12345", 53), ("67890", 55), ("11223", 33)]
  original_prices := [("12345", "500$"), ("67890", "79$"), ("11223", "900$")]

/-- Method `get_total_price` (`src/app.py`, lines 31-33): a read returning the stored price
    string, with the literal default `"total sum price"` for unknown ids.  The state
    component records that the method leaves the store as it was. -/
def get_total_price (m : OrderStatusManager) (order_id : String) :
    String × OrderStatusManager :=
  ((dget m.order_price order_id).getD "total sum price", m)

/-- Method `get_order_status` (`src/app.py`, lines 35-37). -/
def get_order_status (m : OrderStatusManager) (order_id : String) :
    String × OrderStatusManager :=
  ((dget m.order_statuses order_id).getD "Order ID not found.", m)

/-- The shared tail of `initiate_return` after the window guard
    (`src/app.py`, lines 55-63): set the status, reprice with the 2 percent penalty
    (`original_price * 0.02` is exactly `original_price * (2/100)` in the decimal
    arithmetic the source intends), and narrate.  `none` models an escaped
    exception: `KeyError` from `self.order_price[order_id]`, or `ValueError`
    from `float`. -/
def applyPenalty (m : OrderStatusManager) (order_id reason : String) :
    Option (String × OrderStatusManager) :=
  let statuses := dictSet m.order_statuses order_id "Return Initiated"
  match dget m.order_price order_id with
  | none => none
  | some priceStr =>
    match parsePrice priceStr with
    | none => none
    | some original_price =>
      let penalty := original_price * (2 / 100)
      let new_price := original_price - penalty
      let newStr := format2 new_price
      some ("Return initiated for order " ++ order_id ++ " due to: " ++ reason ++
              ". Price after penalty is " ++ newStr ++ ".",
            { m with order_statuses := statuses,
                     order_price := dictSet m.order_price order_id newStr })

/-- Method `initiate_return` (`src/app.py`, lines 39-65): hard-coded id list, then the
    10-day window gate on the shipping date when one is recorded, then the
    penalty-and-status mutation. -/
def initiate_return (m : OrderStatusManager) (today : Int) (order_id reason : String) :
    Option (String × OrderStatusManager) :=
  if order_id ∈ knownIds then
    match dget m.order_shipped order_id with
    | some shipDay =>
      if 10 < today - shipDay then
        some ("Return cannot be initiated for order " ++ order_id ++
                " as it has been more than 10 days since shipping.", m)
      else applyPenalty m order_id reason
    | none => applyPenalty m order_id reason
  else some ("Order ID not found. Cannot initiate return.", m)

/-- Method `cancel_return` (`src/app.py`, lines 67-87).  In the accepted branch the source
    assigns `self.order_statuses.get(order_id, "Cancelled Order")` and
    `self.order_price.get(order_id, "order_price")` back into the same keys —
    the embedding reproduces these reads-then-writes verbatim. -/
def cancel_return (m : OrderStatusManager) (order_id reason : String) :
    String × OrderStatusManager :=
  match dget m.order_statuses order_id with
  | none => ("Order ID not found. Cannot cancel return.", m)
  | some st =>
    if st = "Return Initiated" then
      let st2 := (dget m.order_statuses order_id).getD "Cancelled Order"
      let pr2 := (dget m.order_price order_id).getD "order_price"
      ("Return cancellation initiated for order " ++ order_id ++ " due to: " ++ reason ++
         ". Price reset to " ++ pr2 ++ ".",
       { m with order_statuses := dictSet m.order_statuses order_id st2,
                order_price := dictSet m.order_price order_id pr2 })
    else
      ("Order " ++ order_id ++ " is not in \x27Return Initiated\x27 status. Cannot cancel return.",
       m)

/-- States reachable from the seeded store by any sequence of the four operations
    (an `initiate_return` step requires the call to have returned normally). -/
inductive Reachable : OrderStatusManager → Prop
  | init : Reachable initialManager
  | getStatus (m : OrderStatusManager) (order_id : String) :
      Reachable m → Reachable (get_order_status m order_id).2
  | getPrice (m : OrderStatusManager) (order_id : String) :
      Reachable m → Reachable (get_total_price m order_id).2
  | initiateRet (m : OrderStatusManager) (today : Int) (order_id reason s : String)
      (m2 : OrderStatusManager) :
      Reachable m → initiate_return m today order_id reason = some (s, m2) → Reachable m2
  | cancelRet (m : OrderStatusManager) (order_id reason : String) :
      Reachable m → Reachable (cancel_return m order_id reason).2

/-- The price the seeded store records for each known order, in cents. -/
def origCents (order_id : String) : ℕ :=
  if order_id = "12345" then 50000 else if order_id = "67890" then 7900 else 90000

/-- Rounding a rational to two decimal places. -/
def round2 (q : ℚ) : ℚ := ((roundQ (q * 100) : ℤ) : ℚ) / 100

section RoundingLemmas

theorem roundQ_eq_round (q : ℚ) : roundQ q = round q := by
  rw [round_eq, roundQ, Rat.floor_def]
  exact Rat.floor_def' _

theorem roundQ_nonneg {q : ℚ} (h : 0 ≤ q) : 0 ≤ roundQ q := by
  rw [roundQ_eq_round, round_eq]
  exact Int.le_floor.mpr (by push_cast; linarith)

theorem roundQ_le_of_le {q : ℚ} {n : ℕ} (h : q ≤ (n : ℚ)) : roundQ q ≤ (n : ℤ) := by
  rw [roundQ_eq_round, round_eq]
  have : ⌊q + 1 / 2⌋ < (n : ℤ) + 1 := Int.floor_lt.mpr (by push_cast; linarith)
  omega

end RoundingLemmas

section DigitLemmas

theorem charVal_digitChar {d : ℕ} (h : d < 10) : charVal (digitChar d) = some d := by
  interval_cases d <;> decide

theorem digitChar_ne_dot {d : ℕ} (h : d < 10) : digitChar d ≠ '.' := by
  interval_cases d <;> decide

theorem digitChar_ne_dollar {d : ℕ} (h : d < 10) : digitChar d ≠ '$' := by
  interval_cases d <;> decide

theorem parseDigits_append (a b : List Char) (acc : ℕ) :
    parseDigits (a ++ b) acc =
      match parseDigits a acc with
      | some n => parseDigits b n
      | none => none := by
  induction a generalizing acc with
  | nil => simp [parseDigits]
  | cons c cs ih =>
    simp only [List.cons_append, parseDigits]
    cases charVal c with
    | none => simp
    | some d => simp [ih]

/-- Every character the renderer emits is a decimal digit character. -/
theorem renderNatAux_digits :
    ∀ (fuel n : ℕ), ∀ ch ∈ renderNatAux fuel n, ∃ d, d < 10 ∧ ch = digitChar d := by
  intro fuel
  induction fuel with
  | zero => intro n ch h; simp [renderNatAux] at h
  | succ fuel ih =>
    intro n ch h
    rw [renderNatAux] at h
    by_cases h10 : n < 10
    · simp only [if_pos h10, List.mem_singleton] at h
      exact ⟨n, h10, h⟩
    · simp only [if_neg h10, List.mem_append, List.mem_singleton] at h
      rcases h with h | h
      · exact ih _ ch h
      · exact ⟨n % 10, Nat.mod_lt _ (by omega), h⟩

theorem renderNatAux_ne_nil {fuel n : ℕ} (h : 1 ≤ fuel) : renderNatAux fuel n ≠ [] := by
  cases fuel with
  | zero => omega
  | succ fuel =>
    rw [renderNatAux]
    by_cases h10 : n < 10
    · simp [if_pos h10]
    · simp only [if_neg h10]
      intro hc
      exact absurd (List.append_eq_nil.mp hc).2 (by simp)

theorem parseDigits_renderNatAux :
    ∀ (fuel n acc : ℕ), n < 10 ^ fuel →
      parseDigits (renderNatAux fuel n) acc =
        some (acc * 10 ^ (renderNatAux fuel n).length + n) := by
  intro fuel
  induction fuel with
  | zero =>
    intro n acc h
    interval_cases n
    simp [renderNatAux, parseDigits]
  | succ fuel ih =>
    intro n acc h
    rw [renderNatAux]
    by_cases h10 : n < 10
    · simp only [if_pos h10, parseDigits, charVal_digitChar h10, List.length_singleton,
        pow_one]
      rw [Nat.mul_comm]
    · simp only [if_neg h10]
      have hdiv : n / 10 < 10 ^ fuel := by
        rw [Nat.div_lt_iff_lt_mul (by omega)]
        calc n < 10 ^ (fuel + 1) := h
        _ = 10 ^ fuel * 10 := by ring
      rw [parseDigits_append, ih _ acc hdiv]
      simp only [parseDigits, charVal_digitChar (Nat.mod_lt n (show 0 < 10 by omega)),
        List.length_append, List.length_singleton]
      congr 1
      have := Nat.div_add_mod n 10
      ring_nf
      omega

theorem renderNat_digits (n : ℕ) : ∀ ch ∈ renderNat n, ∃ d, d < 10 ∧ ch = digitChar d :=
  renderNatAux_digits (n + 1) n

theorem renderNat_ne_nil (n : ℕ) : renderNat n ≠ [] := renderNatAux_ne_nil (by omega)

theorem dot_not_mem_renderNat (n : ℕ) : '.' ∉ renderNat n := by
  intro h
  rcases renderNat_digits n _ h with ⟨d, hd, he⟩
  exact digitChar_ne_dot hd he.symm

theorem dollar_not_mem_renderNat (n : ℕ) : '$' ∉ renderNat n := by
  intro h
  rcases renderNat_digits n _ h with ⟨d, hd, he⟩
  exact digitChar_ne_dollar hd he.symm

theorem parseNat_renderNat (n : ℕ) : parseNat (renderNat n) = some n := by
  have hlt : n < 10 ^ (n + 1) :=
    calc n < 10 ^ n := Nat.lt_pow_self (by omega) n
    _ ≤ 10 ^ (n + 1) := Nat.pow_le_pow_right (by omega) (Nat.le_succ n)
  have h := parseDigits_renderNatAux (n + 1) n 0 hlt
  rw [parseNat.eq_def]
  split
  · exact absurd (by assumption) (renderNat_ne_nil n)
  · rw [show renderNat n = renderNatAux (n + 1) n from rfl, h]
    simp

theorem renderNatAux_of_lt_10 {fuel n : ℕ} (hf : 1 ≤ fuel) (h : n < 10) :
    renderNatAux fuel n = [digitChar n] := by
  cases fuel with
  | zero => omega
  | succ fuel => rw [renderNatAux, if_pos h]

theorem renderNat_of_lt_10 {n : ℕ} (h : n < 10) : renderNat n = [digitChar n] :=
  renderNatAux_of_lt_10 (by omega) h

theorem pad2_length {r : ℕ} (h : r < 100) : (pad2 r).length = 2 := by
  rw [pad2]
  by_cases h10 : r < 10
  · rw [if_pos h10, renderNat_of_lt_10 h10]
    rfl
  · rw [if_neg h10, renderNat, renderNatAux, if_neg h10,
      renderNatAux_of_lt_10 (by omega) (by omega)]
    rfl

theorem pad2_digits (r : ℕ) : ∀ ch ∈ pad2 r, ∃ d, d < 10 ∧ ch = digitChar d := by
  intro ch hm
  rw [pad2] at hm
  by_cases h10 : r < 10
  · rw [if_pos h10] at hm
    rcases List.mem_cons.mp hm with hm | hm
    · exact ⟨0, by omega, by rw [hm]; decide⟩
    · exact renderNat_digits r ch hm
  · rw [if_neg h10] at hm
    exact renderNat_digits r ch hm

theorem dot_not_mem_pad2 (r : ℕ) : '.' ∉ pad2 r := by
  intro h
  rcases pad2_digits r _ h with ⟨d, hd, he⟩
  exact digitChar_ne_dot hd he.symm

theorem dollar_not_mem_pad2 (r : ℕ) : '$' ∉ pad2 r := by
  intro h
  rcases pad2_digits r _ h with ⟨d, hd, he⟩
  exact digitChar_ne_dollar hd he.symm

theorem parseNat_pad2 (r : ℕ) : parseNat (pad2 r) = some r := by
  rw [pad2]
  by_cases h10 : r < 10
  · rw [if_pos h10, renderNat_of_lt_10 h10]
    simp [parseNat, parseDigits, charVal_digitChar h10, show charVal '0' = some 0 from by decide]
  · rw [if_neg h10]
    exact parseNat_renderNat r

end DigitLemmas

section SplitLemmas

theorem splitDot_append {a : List Char} (b : List Char) (h : '.' ∉ a) :
    splitDot (a ++ '.' :: b) = some (a, b) := by
  induction a with
  | nil => simp [splitDot]
  | cons c cs ih =>
    have hc : c ≠ '.' := fun hc => h (hc ▸ List.mem_cons_self c cs)
    rw [List.cons_append, splitDot, if_neg hc, ih (fun hm => h (List.mem_cons_of_mem c hm))]
    rfl

theorem stripDollar_append {a : List Char} (h : '$' ∉ a) :
    stripDollar (a ++ ['$']) = a := by
  rw [stripDollar, List.reverse_append]
  simp only [List.reverse_singleton, List.singleton_append, List.dropWhile_cons]
  rw [if_pos (by simp)]
  have : List.dropWhile (fun c => decide (c = '$')) a.reverse = a.reverse := by
    cases ha : a.reverse with
    | nil => simp
    | cons c cs =>
      have hc : c ∈ a := by
        rw [← List.mem_reverse, ha]
        exact List.mem_cons_self c cs
      rw [List.dropWhile_cons, if_neg (by simp; exact fun hcd => h (hcd ▸ hc))]
  rw [this, List.reverse_reverse]

end SplitLemmas

section RoundTrip

/-- Reading back a two-decimal formatted price recovers exactly the rounded cents:
    the composition `float(... .rstrip("$"))` after `f"{x:.2f}$"` loses nothing
    beyond the rounding itself. -/
theorem parsePrice_format2 {q : ℚ} {c : ℕ} (h : roundQ (q * 100) = (c : ℤ)) :
    parsePrice (format2 q) = some ((c : ℚ) / 100) := by
  have hneg : ¬ roundQ (q * 100) < 0 := by omega
  have hdata : (format2 q).data =
      (renderNat (c / 100) ++ '.' :: pad2 (c % 100)) ++ ['$'] := by
    rw [format2]
    simp only [h, Int.toNat_natCast]
    rw [if_neg (show ¬ ((c : ℤ) < 0) by omega)]
  have hdollar : '$' ∉ renderNat (c / 100) ++ '.' :: pad2 (c % 100) := by
    intro hmem
    rcases List.mem_append.mp hmem with hmem | hmem
    · exact dollar_not_mem_renderNat _ hmem
    · rcases List.mem_cons.mp hmem with hmem | hmem
      · exact absurd hmem.symm (by decide)
      · exact dollar_not_mem_pad2 _ hmem
  rw [parsePrice]
  rw [hdata, stripDollar_append hdollar,
    splitDot_append (pad2 (c % 100)) (dot_not_mem_renderNat (c / 100))]
  have hany : ((pad2 (c % 100)).any fun ch => decide (ch = '.')) = false := by
    rw [List.any_eq_false]
    intro ch hm hdec
    exact dot_not_mem_pad2 _ ((of_decide_eq_true hdec) ▸ hm)
  show (if ((pad2 (c % 100)).any fun ch => decide (ch = '.')) = true then none
        else match parseNat (renderNat (c / 100)), parseNat (pad2 (c % 100)) with
          | some i, some f => some ((i : ℚ) + (f : ℚ) / 10 ^ (pad2 (c % 100)).length)
          | _, _ => none) = some ((c : ℚ) / 100)
  rw [hany, if_neg Bool.false_ne_true, parseNat_renderNat, parseNat_pad2]
  show some (((c / 100 : ℕ) : ℚ) + ((c % 100 : ℕ) : ℚ) / 10 ^ (pad2 (c % 100)).length) =
    some ((c : ℚ) / 100)
  rw [pad2_length (Nat.mod_lt c (by omega))]
  have key : (100 : ℚ) * ((c / 100 : ℕ) : ℚ) + ((c % 100 : ℕ) : ℚ) = (c : ℚ) := by
    exact_mod_cast Nat.div_add_mod c 100
  rw [show ((10 : ℚ) ^ 2) = 100 by norm_num]
  congr 1
  field_simp
  linarith

end RoundTrip

section DictLemmas

theorem dget_dictSet_self {α : Type} (l : List (String × α)) (k : String) (v : α) :
    dget (dictSet l k v) k = some v := by
  induction l with
  | nil => simp [dget, dictSet]
  | cons p t ih =>
    rw [dictSet]
    by_cases hp : (p.1 == k) = true
    · rw [if_pos hp, dget, if_pos (by simp)]
    · rw [if_neg hp, dget, if_neg hp]
      exact ih

theorem dget_dictSet_ne {α : Type} (l : List (String × α)) {k k2 : String}
    (h : k2 ≠ k) (v : α) : dget (dictSet l k v) k2 = dget l k2 := by
  induction l with
  | nil =>
    simp only [dictSet, dget, beq_iff_eq]
    rw [if_neg (fun he => h he.symm)]
  | cons p t ih =>
    rw [dictSet]
    by_cases hp : (p.1 == k) = true
    · rw [if_pos hp, dget, dget,
        if_neg (by simp only [beq_iff_eq]; exact fun he => h he.symm),
        if_neg (by simp only [beq_iff_eq] at hp ⊢; rw [hp]; exact fun he => h he.symm)]
    · rw [if_neg hp, dget, dget]
      by_cases hp2 : (p.1 == k2) = true
      · rw [if_pos hp2, if_pos hp2]
      · rw [if_neg hp2, if_neg hp2]
        exact ih

theorem keys_dictSet_of_mem {α : Type} {l : List (String × α)} {k : String}
    (h : k ∈ l.map Prod.fst) (v : α) :
    (dictSet l k v).map Prod.fst = l.map Prod.fst := by
  induction l with
  | nil => simp at h
  | cons p t ih =>
    rw [dictSet]
    by_cases hp : (p.1 == k) = true
    · rw [if_pos hp, List.map_cons, List.map_cons]
      simp only [beq_iff_eq] at hp
      rw [hp]
    · rw [if_neg hp, List.map_cons, List.map_cons,
        ih (by
          rcases List.mem_cons.mp (List.map_cons Prod.fst p t ▸ h) with he | hm
          · exact absurd (by simp [he.symm]) hp
          · exact hm)]

/-- Writing back the value a key already holds is a no-op on the whole list. -/
theorem dictSet_dget_self {α : Type} {l : List (String × α)} {k : String} {v : α}
    (h : dget l k = some v) : dictSet l k v = l := by
  induction l with
  | nil => simp [dget] at h
  | cons p t ih =>
    rw [dget] at h
    rw [dictSet]
    by_cases hp : (p.1 == k) = true
    · rw [if_pos hp]
      rw [if_pos hp, Option.some.injEq] at h
      simp only [beq_iff_eq] at hp
      rw [← hp, ← h]
    · rw [if_neg hp]
      rw [if_neg hp] at h
      rw [ih h]

theorem dget_eq_none_iff {α : Type} (l : List (String × α)) (k : String) :
    dget l k = none ↔ k ∉ l.map Prod.fst := by
  induction l with
  | nil => simp [dget]
  | cons p t ih =>
    rw [dget, List.map_cons]
    by_cases hp : (p.1 == k) = true
    · simp only [if_pos hp, beq_iff_eq] at hp ⊢
      simp [hp]
    · rw [if_neg hp, ih]
      simp only [beq_iff_eq] at hp
      simp only [List.mem_cons, not_or]
      exact ⟨fun hn => ⟨fun he => hp he.symm, hn⟩, fun hn => hn.2⟩

theorem dget_of_mem_keys {α : Type} {l : List (String × α)} {k : String}
    (h : k ∈ l.map Prod.fst) : ∃ v, dget l k = some v := by
  cases hd : dget l k with
  | none => exact absurd ((dget_eq_none_iff l k).mp hd) (not_not_intro h)
  | some v => exact ⟨v, rfl⟩

end DictLemmas

section StringHelpers

theorem String_data_mk (l : List Char) : (String.mk l).data = l := rfl

theorem append_ne_empty_left {a : String} (b : String) (h : a ≠ "") : a ++ b ≠ "" := by
  intro he
  apply h
  have hd : (a ++ b).data = [] := by rw [he]
  rw [String.data_append] at hd
  rcases List.append_eq_nil.mp hd with ⟨ha, _⟩
  cases a
  simp only [String_data_mk] at ha
  rw [ha]

theorem format2_ne_empty (q : ℚ) : format2 q ≠ "" := by
  rw [format2]
  intro he
  have hd := congrArg String.data he
  by_cases h : roundQ (q * 100) < 0
  · rw [if_pos h] at hd
    simp only [String_data_mk] at hd
    exact absurd hd (by simp [show ("" : String).data = [] from rfl])
  · rw [if_neg h] at hd
    simp only [String_data_mk] at hd
    rcases List.append_eq_nil.mp hd with ⟨hd1, _⟩
    rcases List.append_eq_nil.mp hd1 with ⟨hd2, _⟩
    exact renderNat_ne_nil _ hd2

end StringHelpers

section PenaltyArithmetic

/-- The cents value stored after one application of the 2 percent penalty to a price
    of `c` cents (a derived quantity used to state the invariants). -/
def newCents (c : ℕ) : ℕ :=
  (roundQ (((c : ℚ) / 100 - (c : ℚ) / 100 * (2 / 100)) * 100)).toNat

theorem roundQ_newCents (c : ℕ) :
    roundQ (((c : ℚ) / 100 - (c : ℚ) / 100 * (2 / 100)) * 100) = (newCents c : ℤ) := by
  rw [newCents, Int.toNat_of_nonneg]
  apply roundQ_nonneg
  have h0 : (0 : ℚ) ≤ (c : ℚ) := Nat.cast_nonneg c
  nlinarith

theorem newCents_le (c : ℕ) : newCents c ≤ c := by
  have h := roundQ_le_of_le (q := ((c : ℚ) / 100 - (c : ℚ) / 100 * (2 / 100)) * 100)
    (n := c) (by
      have h0 : (0 : ℚ) ≤ (c : ℚ) := Nat.cast_nonneg c
      nlinarith)
  rw [roundQ_newCents] at h
  exact_mod_cast h

theorem parse_format_newCents (c : ℕ) :
    parsePrice (format2 ((c : ℚ) / 100 - (c : ℚ) / 100 * (2 / 100))) =
      some ((newCents c : ℚ) / 100) :=
  parsePrice_format2 (roundQ_newCents c)

theorem round2_penalty_eq_newCents (c : ℕ) :
    round2 (98 / 100 * ((c : ℚ) / 100)) = (newCents c : ℚ) / 100 := by
  rw [round2, show (98 / 100 * ((c : ℚ) / 100)) = ((c : ℚ) / 100 - (c : ℚ) / 100 * (2 / 100))
    from by ring, roundQ_newCents]
  norm_num

end PenaltyArithmetic

section OperationLemmas

theorem applyPenalty_spec {m : OrderStatusManager} {order_id : String} (reason : String)
    {s : String} {q : ℚ}
    (hprice : dget m.order_price order_id = some s)
    (hparse : parsePrice s = some q) :
    applyPenalty m order_id reason =
      some ("Return initiated for order " ++ order_id ++ " due to: " ++ reason ++
              ". Price after penalty is " ++ format2 (q - q * (2 / 100)) ++ ".",
            { m with
                order_statuses := dictSet m.order_statuses order_id "Return Initiated",
                order_price := dictSet m.order_price order_id
                  (format2 (q - q * (2 / 100))) }) := by
  simp only [applyPenalty, hprice, hparse]

theorem initiate_return_not_known {m : OrderStatusManager} {order_id : String}
    (today : Int) (reason : String) (h : order_id ∉ knownIds) :
    initiate_return m today order_id reason =
      some ("Order ID not found. Cannot initiate return.", m) := by
  simp only [initiate_return, if_neg h]

theorem initiate_return_rejected {m : OrderStatusManager} {order_id : String}
    {today shipDay : Int} (reason : String) (hk : order_id ∈ knownIds)
    (hd : dget m.order_shipped order_id = some shipDay) (hw : 10 < today - shipDay) :
    initiate_return m today order_id reason =
      some ("Return cannot be initiated for order " ++ order_id ++
              " as it has been more than 10 days since shipping.", m) := by
  simp only [initiate_return, if_pos hk, hd, if_pos hw]

theorem initiate_return_window_ok {m : OrderStatusManager} {order_id : String}
    {today shipDay : Int} (reason : String) (hk : order_id ∈ knownIds)
    (hd : dget m.order_shipped order_id = some shipDay) (hw : ¬ 10 < today - shipDay) :
    initiate_return m today order_id reason = applyPenalty m order_id reason := by
  simp only [initiate_return, if_pos hk, hd, if_neg hw]

theorem initiate_return_no_ship {m : OrderStatusManager} {order_id : String}
    (today : Int) (reason : String) (hk : order_id ∈ knownIds)
    (hd : dget m.order_shipped order_id = none) :
    initiate_return m today order_id reason = applyPenalty m order_id reason := by
  simp only [initiate_return, if_pos hk, hd]

theorem cancel_return_not_known {m : OrderStatusManager} {order_id : String}
    (reason : String) (hd : dget m.order_statuses order_id = none) :
    cancel_return m order_id reason = ("Order ID not found. Cannot cancel return.", m) := by
  simp only [cancel_return, hd]

theorem cancel_return_wrong_status {m : OrderStatusManager} {order_id st : String}
    (reason : String) (hd : dget m.order_statuses order_id = some st)
    (hst : st ≠ "Return Initiated") :
    cancel_return m order_id reason =
      ("Order " ++ order_id ++ " is not in \x27Return Initiated\x27 status. Cannot cancel return.",
       m) := by
  simp only [cancel_return, hd, if_neg hst]

theorem cancel_return_success {m : OrderStatusManager} {order_id pr : String}
    (reason : String) (hd : dget m.order_statuses order_id = some "Return Initiated")
    (hpr : dget m.order_price order_id = some pr) :
    cancel_return m order_id reason =
      ("Return cancellation initiated for order " ++ order_id ++ " due to: " ++ reason ++
         ". Price reset to " ++ pr ++ ".", m) := by
  simp only [cancel_return, hd, hpr, Option.getD_some,
    dictSet_dget_self hd, dictSet_dget_self hpr]
  rfl

end OperationLemmas

section Invariant

/-- The price entry of a known order is a non-empty string that parses to a whole
    number of cents bounded by the order's seeded price. -/
def PriceOk (m : OrderStatusManager) (order_id : String) : Prop :=
  ∃ (s : String) (c : ℕ), dget m.order_price order_id = some s ∧ s ≠ "" ∧
    parsePrice s = some ((c : ℚ) / 100) ∧ c ≤ origCents order_id

/-- The store invariant maintained by every operation: the key sets never change,
    ship dates and original prices are never written, statuses are non-empty strings,
    and prices are well-formed and bounded by the seeded prices. -/
def StoreInv (m : OrderStatusManager) : Prop :=
  m.order_statuses.map Prod.fst = knownIds ∧
  m.order_price.map Prod.fst = knownIds ∧
  m.order_shipped = initialManager.order_shipped ∧
  m.original_prices = initialManager.original_prices ∧
  (∀ oid ∈ knownIds, ∃ st, dget m.order_statuses oid = some st ∧ st ≠ "") ∧
  (∀ oid ∈ knownIds, PriceOk m oid)

theorem inv_init : StoreInv initialManager := by
  refine ⟨rfl, rfl, rfl, rfl, ?_, ?_⟩
  · intro oid hoid
    simp only [knownIds, List.mem_cons, List.not_mem_nil, or_false] at hoid
    rcases hoid with rfl | rfl | rfl
    · exact ⟨"Shipped", by decide, by decide⟩
    · exact ⟨"Processing", by decide, by decide⟩
    · exact ⟨"Delivered", by decide, by decide⟩
  · intro oid hoid
    simp only [knownIds, List.mem_cons, List.not_mem_nil, or_false] at hoid
    rcases hoid with rfl | rfl | rfl
    · refine ⟨"500$", 50000, by decide, by decide, ?_, by decide⟩
      rw [show parsePrice "500$" = some ((500 : ℕ) : ℚ) from by decide]
      congr 1
      push_cast
      norm_num
    · refine ⟨"79$", 7900, by decide, by decide, ?_, by decide⟩
      rw [show parsePrice "79$" = some ((79 : ℕ) : ℚ) from by decide]
      congr 1
      push_cast
      norm_num
    · refine ⟨"900$", 90000, by decide, by decide, ?_, by decide⟩
      rw [show parsePrice "900$" = some ((900 : ℕ) : ℚ) from by decide]
      congr 1
      push_cast
      norm_num

/-- The accepted branch of `cancel_return` writes back the values it just read, so
    the state component of the result is always the input store. -/
theorem cancel_return_snd {m : OrderStatusManager} (hInv : StoreInv m)
    (order_id reason : String) : (cancel_return m order_id reason).2 = m := by
  cases hd : dget m.order_statuses order_id with
  | none => rw [cancel_return_not_known reason hd]
  | some st =>
    by_cases hst : st = "Return Initiated"
    · subst hst
      have hkey : order_id ∈ m.order_statuses.map Prod.fst := by
        by_contra hn
        have : dget m.order_statuses order_id = none := (dget_eq_none_iff _ _).mpr hn
        rw [hd] at this
        exact Option.noConfusion this
      have hmem : order_id ∈ m.order_price.map Prod.fst := by
        rw [hInv.2.1, ← hInv.1]
        exact hkey
      obtain ⟨pr, hpr⟩ := dget_of_mem_keys hmem
      rw [cancel_return_success reason hd hpr]
    · rw [cancel_return_wrong_status reason hd hst]

theorem inv_applyPenalty {m m2 : OrderStatusManager} {order_id reason s2 : String}
    (hInv : StoreInv m) (hk : order_id ∈ knownIds)
    (h : applyPenalty m order_id reason = some (s2, m2)) : StoreInv m2 := by
  obtain ⟨s, c, hpr, hne, hparse, hle⟩ := hInv.2.2.2.2.2 order_id hk
  rw [applyPenalty_spec reason hpr hparse, Option.some.injEq, Prod.mk.injEq] at h
  obtain ⟨hs2, hm2⟩ := h
  refine ⟨?_, ?_, ?_, ?_, ?_, ?_⟩
  · show m2.order_statuses.map Prod.fst = knownIds
    rw [← hm2]
    show (dictSet m.order_statuses order_id "Return Initiated").map Prod.fst = knownIds
    rw [keys_dictSet_of_mem (by rw [hInv.1]; exact hk), hInv.1]
  · show m2.order_price.map Prod.fst = knownIds
    rw [← hm2]
    show (dictSet m.order_price order_id
      (format2 ((c : ℚ) / 100 - (c : ℚ) / 100 * (2 / 100)))).map Prod.fst = knownIds
    rw [keys_dictSet_of_mem (by rw [hInv.2.1]; exact hk), hInv.2.1]
  · rw [← hm2]
    exact hInv.2.2.1
  · rw [← hm2]
    exact hInv.2.2.2.1
  · intro oid hoid
    by_cases he : oid = order_id
    · subst he
      refine ⟨"Return Initiated", ?_, by decide⟩
      rw [← hm2]
      exact dget_dictSet_self _ _ _
    · obtain ⟨st, hst, hstne⟩ := hInv.2.2.2.2.1 oid hoid
      refine ⟨st, ?_, hstne⟩
      rw [← hm2]
      show dget (dictSet m.order_statuses order_id "Return Initiated") oid = some st
      rw [dget_dictSet_ne _ he _]
      exact hst
  · intro oid hoid
    by_cases he : oid = order_id
    · subst he
      refine ⟨format2 ((c : ℚ) / 100 - (c : ℚ) / 100 * (2 / 100)), newCents c, ?_,
        format2_ne_empty _, parse_format_newCents c, le_trans (newCents_le c) hle⟩
      rw [← hm2]
      exact dget_dictSet_self _ _ _
    · obtain ⟨s1, c1, h1, h2, h3, h4⟩ := hInv.2.2.2.2.2 oid hoid
      refine ⟨s1, c1, ?_, h2, h3, h4⟩
      rw [← hm2]
      show dget (dictSet m.order_price order_id
        (format2 ((c : ℚ) / 100 - (c : ℚ) / 100 * (2 / 100)))) oid = some s1
      rw [dget_dictSet_ne _ he _]
      exact h1

theorem inv_initiate_return {m m2 : OrderStatusManager} {today : Int}
    {oid r s : String} (hInv : StoreInv m)
    (h : initiate_return m today oid r = some (s, m2)) : StoreInv m2 := by
  by_cases hk : oid ∈ knownIds
  · cases hd : dget m.order_shipped oid with
    | some d =>
      by_cases hw : 10 < today - d
      · rw [initiate_return_rejected r hk hd hw, Option.some.injEq, Prod.mk.injEq] at h
        rw [← h.2]
        exact hInv
      · rw [initiate_return_window_ok r hk hd hw] at h
        exact inv_applyPenalty hInv hk h
    | none =>
      rw [initiate_return_no_ship _ r hk hd] at h
      exact inv_applyPenalty hInv hk h
  · rw [initiate_return_not_known _ r hk, Option.some.injEq, Prod.mk.injEq] at h
    rw [← h.2]
    exact hInv

theorem inv_reachable {m : OrderStatusManager} (h : Reachable m) : StoreInv m := by
  induction h with
  | init => exact inv_init
  | getStatus m oid hr ih => exact ih
  | getPrice m oid hr ih => exact ih
  | initiateRet m today oid r s m2 hr heq ih => exact inv_initiate_return ih heq
  | cancelRet m oid r hr ih =>
    rw [cancel_return_snd ih]
    exact ih

end Invariant

section MoreHelpers

/-- Closed form of `format2` once the rounded cents are known and non-negative. -/
theorem format2_eq {q : ℚ} {c : ℕ} (h : roundQ (q * 100) = (c : ℤ)) :
    format2 q = ⟨renderNat (c / 100) ++ '.' :: pad2 (c % 100) ++ ['$']⟩ := by
  rw [format2]
  simp only [h, Int.toNat_natCast]
  rw [if_neg (show ¬ ((c : ℤ) < 0) by omega)]

/-- Inside the 10-day window (or with no recorded ship date) `initiate_return`
    falls through to the penalty branch. -/
theorem initiate_return_in_window {m : OrderStatusManager} {order_id : String}
    {today : Int} (reason : String) (hk : order_id ∈ knownIds)
    (hwin : ∀ d : Int, dget m.order_shipped order_id = some d → today - d ≤ 10) :
    initiate_return m today order_id reason = applyPenalty m order_id reason := by
  cases hd : dget m.order_shipped order_id with
  | none => exact initiate_return_no_ship _ _ hk hd
  | some d =>
    exact initiate_return_window_ok _ hk hd (by have := hwin d hd; omega)

theorem newCents_lt {c : ℕ} (h : 25 < c) : newCents c < c := by
  have hz : roundQ (((c : ℚ) / 100 - (c : ℚ) / 100 * (2 / 100)) * 100) < (c : ℤ) := by
    rw [roundQ_eq_round, round_eq]
    apply Int.floor_lt.mpr
    have hc : (25 : ℚ) < (c : ℚ) := by exact_mod_cast h
    push_cast
    nlinarith
  have := roundQ_newCents c
  rw [this] at hz
  exact_mod_cast hz

theorem newCents_gt_25 {c : ℕ} (h : 27 ≤ c) : 25 < newCents c := by
  have hz : (26 : ℤ) ≤ roundQ (((c : ℚ) / 100 - (c : ℚ) / 100 * (2 / 100)) * 100) := by
    rw [roundQ_eq_round, round_eq]
    apply Int.le_floor.mpr
    have hc : (27 : ℚ) ≤ (c : ℚ) := by exact_mod_cast h
    push_cast
    nlinarith
  rw [roundQ_newCents c] at hz
  have : (26 : ℕ) ≤ newCents c := by exact_mod_cast hz
  omega

end MoreHelpers

/-- C10: `get_order_status` and `get_total_price` are pure reads — for every store
    and every order id, known or unknown, each returns its string and leaves every
    field of the store exactly as it was. -/
theorem get_operations_are_pure_reads (m : OrderStatusManager) (order_id : String) :
    (get_order_status m order_id).2 = m ∧ (get_total_price m order_id).2 = m :=
  ⟨rfl, rfl⟩

/-- C5: on a known order whose current status is not "Return Initiated",
    `cancel_return` returns the explanatory rejection string and leaves the whole
    store (second component) unchanged. -/
theorem cancel_return_rejects_wrong_status (m : OrderStatusManager)
    (order_id reason st : String)
    (hst : dget m.order_statuses order_id = some st) (hne : st ≠ "Return Initiated") :
    cancel_return m order_id reason =
      ("Order " ++ order_id ++
         " is not in \x27Return Initiated\x27 status. Cannot cancel return.", m) :=
  cancel_return_wrong_status reason hst hne

/-- Witness for C5 at the seeded store: order "12345" is in status "Shipped". -/
theorem cancel_return_rejects_wrong_status_witness :
    cancel_return initialManager "12345" "changed mind" =
      ("Order " ++ "12345" ++
         " is not in \x27Return Initiated\x27 status. Cannot cancel return.",
       initialManager) :=
  cancel_return_rejects_wrong_status initialManager "12345" "changed mind" "Shipped"
    (by decide) (by decide)

/-- C4: on a known order whose recorded ship date lies strictly more than 10 days
    before `today`, `initiate_return` returns the explanatory rejection string and
    returns the store unchanged. -/
theorem initiate_return_rejects_late_returns (m : OrderStatusManager)
    (order_id reason : String) (today shipDay : Int)
    (hk : order_id ∈ knownIds)
    (hd : dget m.order_shipped order_id = some shipDay)
    (hw : 10 < today - shipDay) :
    initiate_return m today order_id reason =
      some ("Return cannot be initiated for order " ++ order_id ++
              " as it has been more than 10 days since shipping.", m) :=
  initiate_return_rejected reason hk hd hw

/-- Witness for C4 at the seeded store: order "11223" shipped on day 33 and
    `today = 100` is 67 days later. -/
theorem initiate_return_rejects_late_returns_witness :
    initiate_return initialManager 100 "11223" "damaged" =
      some ("Return cannot be initiated for order " ++ "11223" ++
              " as it has been more than 10 days since shipping.", initialManager) :=
  initiate_return_rejects_late_returns initialManager "11223" "damaged" 100 33
    (by decide) (by decide) (by decide)

/-- C3: for an order id not present in the store, all four operations return their
    fixed not-found sentinel strings ("Order ID not found." for status,
    "total sum price" for price, and the two "Cannot ..." messages) and return the
    store unchanged in every field. -/
theorem unknown_id_returns_sentinel_and_mutates_nothing
    (m : OrderStatusManager) (order_id reason : String) (today : Int)
    (hr : Reachable m) (hid : dget m.order_statuses order_id = none) :
    get_order_status m order_id = ("Order ID not found.", m) ∧
    get_total_price m order_id = ("total sum price", m) ∧
    initiate_return m today order_id reason =
      some ("Order ID not found. Cannot initiate return.", m) ∧
    cancel_return m order_id reason = ("Order ID not found. Cannot cancel return.", m) := by
  have hInv := inv_reachable hr
  have hnot : order_id ∉ knownIds := by
    intro hk
    rw [← hInv.1] at hk
    obtain ⟨v, hv⟩ := dget_of_mem_keys hk
    rw [hid] at hv
    exact Option.noConfusion hv
  have hpr : dget m.order_price order_id = none := by
    rw [dget_eq_none_iff, hInv.2.1]
    exact hnot
  refine ⟨?_, ?_, initiate_return_not_known _ _ hnot, cancel_return_not_known _ hid⟩
  · rw [get_order_status, hid]
    rfl
  · rw [get_total_price, hpr]
    rfl

/-- Witness for C3: the id "99999" is not in the seeded store. -/
theorem unknown_id_returns_sentinel_and_mutates_nothing_witness :
    get_order_status initialManager "99999" = ("Order ID not found.", initialManager) ∧
    get_total_price initialManager "99999" = ("total sum price", initialManager) ∧
    initiate_return initialManager 56 "99999" "damaged" =
      some ("Order ID not found. Cannot initiate return.", initialManager) ∧
    cancel_return initialManager "99999" "damaged" =
      ("Order ID not found. Cannot cancel return.", initialManager) :=
  unknown_id_returns_sentinel_and_mutates_nothing initialManager "99999" "damaged" 56
    Reachable.init (by decide)

/-- C8: on every reachable store and every input (any order id, any reason, any
    current day), each of the four operations returns normally — `initiate_return`
    yields `some` result, never the `none` that models an escaped exception — and
    every returned narration string is non-empty. -/
theorem operations_total_and_nonempty
    (m : OrderStatusManager) (order_id reason : String) (today : Int)
    (hr : Reachable m) :
    (get_order_status m order_id).1 ≠ "" ∧
    (get_total_price m order_id).1 ≠ "" ∧
    (∃ (s : String) (m2 : OrderStatusManager),
       initiate_return m today order_id reason = some (s, m2) ∧ s ≠ "") ∧
    (cancel_return m order_id reason).1 ≠ "" := by
  have hInv := inv_reachable hr
  refine ⟨?_, ?_, ?_, ?_⟩
  · show (dget m.order_statuses order_id).getD "Order ID not found." ≠ ""
    cases hd : dget m.order_statuses order_id with
    | none => decide
    | some st =>
      have hkey : order_id ∈ m.order_statuses.map Prod.fst := by
        by_contra hn
        have h0 : dget m.order_statuses order_id = none := (dget_eq_none_iff _ _).mpr hn
        rw [hd] at h0
        exact Option.noConfusion h0
      obtain ⟨st2, hst2, hne2⟩ := hInv.2.2.2.2.1 order_id (hInv.1 ▸ hkey)
      rw [hd, Option.some.injEq] at hst2
      rw [Option.getD_some, hst2]
      exact hne2
  · show (dget m.order_price order_id).getD "total sum price" ≠ ""
    cases hd : dget m.order_price order_id with
    | none => decide
    | some pr =>
      have hkey : order_id ∈ m.order_price.map Prod.fst := by
        by_contra hn
        have h0 : dget m.order_price order_id = none := (dget_eq_none_iff _ _).mpr hn
        rw [hd] at h0
        exact Option.noConfusion h0
      obtain ⟨s, c, hs, hne, _, _⟩ := hInv.2.2.2.2.2 order_id (hInv.2.1 ▸ hkey)
      rw [hd, Option.some.injEq] at hs
      rw [Option.getD_some, hs]
      exact hne
  · by_cases hk : order_id ∈ knownIds
    · cases hd : dget m.order_shipped order_id with
      | some d =>
        by_cases hw : 10 < today - d
        · refine ⟨_, m, initiate_return_rejected reason hk hd hw, ?_⟩
          repeat apply append_ne_empty_left
          decide
        · obtain ⟨s, c, hpr, _, hparse, _⟩ := hInv.2.2.2.2.2 order_id hk
          refine ⟨_, _, by
            rw [initiate_return_window_ok reason hk hd hw,
              applyPenalty_spec reason hpr hparse], ?_⟩
          repeat apply append_ne_empty_left
          decide
      | none =>
        obtain ⟨s, c, hpr, _, hparse, _⟩ := hInv.2.2.2.2.2 order_id hk
        refine ⟨_, _, by
          rw [initiate_return_no_ship _ reason hk hd,
            applyPenalty_spec reason hpr hparse], ?_⟩
        repeat apply append_ne_empty_left
        decide
    · exact ⟨_, m, initiate_return_not_known _ _ hk, by decide⟩
  · cases hd : dget m.order_statuses order_id with
    | none =>
      rw [cancel_return_not_known reason hd]
      show "Order ID not found. Cannot cancel return." ≠ ""
      decide
    | some st =>
      by_cases hst : st = "Return Initiated"
      · subst hst
        have hkey : order_id ∈ m.order_statuses.map Prod.fst := by
          by_contra hn
          have h0 : dget m.order_statuses order_id = none := (dget_eq_none_iff _ _).mpr hn
          rw [hd] at h0
          exact Option.noConfusion h0
        have hmem : order_id ∈ m.order_price.map Prod.fst := by
          rw [hInv.2.1, ← hInv.1]
          exact hkey
        obtain ⟨pr, hpr⟩ := dget_of_mem_keys hmem
        rw [cancel_return_success reason hd hpr]
        show _ ≠ ""
        repeat apply append_ne_empty_left
        decide
      · rw [cancel_return_wrong_status reason hd hst]
        show _ ≠ ""
        repeat apply append_ne_empty_left
        decide

/-- Witness for C8 at the seeded store with an unknown id and `today = 0`. -/
theorem operations_total_and_nonempty_witness :
    (get_order_status initialManager "99999").1 ≠ "" ∧
    (get_total_price initialManager "99999").1 ≠ "" ∧
    (∃ (s : String) (m2 : OrderStatusManager),
       initiate_return initialManager 0 "99999" "because" = some (s, m2) ∧ s ≠ "") ∧
    (cancel_return initialManager "99999" "because").1 ≠ "" :=
  operations_total_and_nonempty initialManager "99999" "because" 0 Reachable.init

/-- C6: in every reachable store, every known order's current price (as recorded in
    `order_price`) is at most the original price recorded at construction in
    `original_prices`, comparing the parsed numeric values. -/
theorem price_never_exceeds_original (m : OrderStatusManager) (order_id : String)
    (hr : Reachable m) (hk : order_id ∈ knownIds) :
    ∃ (s sOrig : String) (p pOrig : ℚ),
      dget m.order_price order_id = some s ∧
      dget m.original_prices order_id = some sOrig ∧
      parsePrice s = some p ∧ parsePrice sOrig = some pOrig ∧ p ≤ pOrig := by
  have hInv := inv_reachable hr
  obtain ⟨s, c, hpr, hne, hparse, hle⟩ := hInv.2.2.2.2.2 order_id hk
  have horig : dget m.original_prices order_id =
      dget initialManager.original_prices order_id := by
    rw [hInv.2.2.2.1]
  have hcast : ((c : ℚ) / 100) ≤ ((origCents order_id : ℚ) / 100) := by
    have : (c : ℚ) ≤ (origCents order_id : ℚ) := by exact_mod_cast hle
    linarith
  simp only [knownIds, List.mem_cons, List.not_mem_nil, or_false] at hk
  rcases hk with rfl | rfl | rfl
  · refine ⟨s, "500$", (c : ℚ) / 100, ((50000 : ℕ) : ℚ) / 100, hpr,
      by rw [horig]; decide, hparse, ?_, ?_⟩
    · rw [show parsePrice "500$" = some ((500 : ℕ) : ℚ) from by decide]
      congr 1
      push_cast
      norm_num
    · exact hcast
  · refine ⟨s, "79$", (c : ℚ) / 100, ((7900 : ℕ) : ℚ) / 100, hpr,
      by rw [horig]; decide, hparse, ?_, ?_⟩
    · rw [show parsePrice "79$" = some ((79 : ℕ) : ℚ) from by decide]
      congr 1
      push_cast
      norm_num
    · exact hcast
  · refine ⟨s, "900$", (c : ℚ) / 100, ((90000 : ℕ) : ℚ) / 100, hpr,
      by rw [horig]; decide, hparse, ?_, ?_⟩
    · rw [show parsePrice "900$" = some ((900 : ℕ) : ℚ) from by decide]
      congr 1
      push_cast
      norm_num
    · exact hcast

/-- Witness for C6 at the seeded store for order "12345". -/
theorem price_never_exceeds_original_witness :
    ∃ (s sOrig : String) (p pOrig : ℚ),
      dget initialManager.order_price "12345" = some s ∧
      dget initialManager.original_prices "12345" = some sOrig ∧
      parsePrice s = some p ∧ parsePrice sOrig = some pOrig ∧ p ≤ pOrig :=
  price_never_exceeds_original initialManager "12345" Reachable.init (by decide)

/-- C9: on a reachable store where an order is in status "Return Initiated", the
    accepted `cancel_return` returns the success narration with the state component
    exactly the input store (the writes are self-assignments, so status stays
    "Return Initiated" and the price keeps its value from immediately before the
    call); no `initiate_return` or `cancel_return` step ever moves that status to a
    different value; and running `cancel_return` a second time gives the same
    accepted result again. -/
theorem cancel_return_is_self_assignment (m : OrderStatusManager)
    (order_id reason : String) (hr : Reachable m)
    (hst : dget m.order_statuses order_id = some "Return Initiated") :
    (∃ pr, dget m.order_price order_id = some pr ∧
       cancel_return m order_id reason =
         ("Return cancellation initiated for order " ++ order_id ++ " due to: " ++
            reason ++ ". Price reset to " ++ pr ++ ".", m)) ∧
    (∀ (today : Int) (oid2 r2 s : String) (m2 : OrderStatusManager),
       initiate_return m today oid2 r2 = some (s, m2) →
       dget m2.order_statuses order_id = some "Return Initiated") ∧
    (∀ oid2 r2 : String,
       dget (cancel_return m oid2 r2).2.order_statuses order_id =
         some "Return Initiated") ∧
    cancel_return (cancel_return m order_id reason).2 order_id reason =
      cancel_return m order_id reason := by
  have hInv := inv_reachable hr
  have hkey : order_id ∈ m.order_statuses.map Prod.fst := by
    by_contra hn
    have h0 : dget m.order_statuses order_id = none := (dget_eq_none_iff _ _).mpr hn
    rw [hst] at h0
    exact Option.noConfusion h0
  have hmem : order_id ∈ m.order_price.map Prod.fst := by
    rw [hInv.2.1, ← hInv.1]
    exact hkey
  obtain ⟨pr, hpr⟩ := dget_of_mem_keys hmem
  refine ⟨⟨pr, hpr, cancel_return_success reason hst hpr⟩, ?_, ?_, ?_⟩
  · intro today oid2 r2 s m2 h
    by_cases hk : oid2 ∈ knownIds
    · cases hd : dget m.order_shipped oid2 with
      | some d =>
        by_cases hw : 10 < today - d
        · rw [initiate_return_rejected r2 hk hd hw, Option.some.injEq,
            Prod.mk.injEq] at h
          rw [← h.2]
          exact hst
        · rw [initiate_return_window_ok r2 hk hd hw] at h
          obtain ⟨s1, c1, hpr1, _, hparse1, _⟩ := hInv.2.2.2.2.2 oid2 hk
          rw [applyPenalty_spec r2 hpr1 hparse1, Option.some.injEq, Prod.mk.injEq] at h
          rw [← h.2]
          show dget (dictSet m.order_statuses oid2 "Return Initiated") order_id =
            some "Return Initiated"
          by_cases he : order_id = oid2
          · subst he
            exact dget_dictSet_self _ _ _
          · rw [dget_dictSet_ne _ he _]
            exact hst
      | none =>
        rw [initiate_return_no_ship _ r2 hk hd] at h
        obtain ⟨s1, c1, hpr1, _, hparse1, _⟩ := hInv.2.2.2.2.2 oid2 hk
        rw [applyPenalty_spec r2 hpr1 hparse1, Option.some.injEq, Prod.mk.injEq] at h
        rw [← h.2]
        show dget (dictSet m.order_statuses oid2 "Return Initiated") order_id =
          some "Return Initiated"
        by_cases he : order_id = oid2
        · subst he
          exact dget_dictSet_self _ _ _
        · rw [dget_dictSet_ne _ he _]
          exact hst
    · rw [initiate_return_not_known _ r2 hk, Option.some.injEq, Prod.mk.injEq] at h
      rw [← h.2]
      exact hst
  · intro oid2 r2
    rw [cancel_return_snd hInv]
    exact hst
  · rw [cancel_return_snd hInv]

section Concrete67890

/-- The store after a successful `initiate_return("67890", ...)` on the seeded store. -/
def managerAfter67890 : OrderStatusManager :=
  { initialManager with
      order_statuses := dictSet initialManager.order_statuses "67890" "Return Initiated",
      order_price := dictSet initialManager.order_price "67890" "77.42$" }

theorem roundQ_7742 : roundQ (((79 : ℚ) - 79 * (2 / 100)) * 100) = ((7742 : ℕ) : ℤ) := by
  rw [roundQ_eq_round, round_eq, Int.floor_eq_iff]
  constructor <;> norm_num

theorem format2_79 : format2 ((79 : ℚ) - 79 * (2 / 100)) = "77.42$" := by
  rw [format2_eq roundQ_7742]
  decide

/-- Concrete evaluation of the documented example: returning order "67890"
    (price 79$, shipped day 55) on day 56. -/
theorem initiate67890_eq :
    initiate_return initialManager 56 "67890" "wrong item" =
      some ("Return initiated for order 67890 due to: wrong item. Price after penalty is 77.42$.",
        managerAfter67890) := by
  rw [initiate_return_window_ok "wrong item" (by decide)
      (show dget initialManager.order_shipped "67890" = some 55 from by decide) (by decide),
    applyPenalty_spec "wrong item"
      (show dget initialManager.order_price "67890" = some "79$" from by decide)
      (show parsePrice "79$" = some (79 : ℚ) from by decide),
    format2_79]
  rfl

theorem reachableAfter67890 : Reachable managerAfter67890 :=
  Reachable.initiateRet initialManager 56 "67890" "wrong item" _ managerAfter67890
    Reachable.init initiate67890_eq

end Concrete67890

/-- Witness for C9: after the concrete successful return of order "67890", a second
    and a third `cancel_return` give the same accepted result. -/
theorem cancel_return_is_self_assignment_witness :
    cancel_return (cancel_return managerAfter67890 "67890" "changed mind").2
        "67890" "changed mind" =
      cancel_return managerAfter67890 "67890" "changed mind" :=
  (cancel_return_is_self_assignment managerAfter67890 "67890" "changed mind"
    reachableAfter67890 (by decide)).2.2.2

section Compounding

/-- One in-window `initiate_return` step, with the resulting price entry and the
    untouched ship-date map made explicit. -/
theorem initiate_step {m : OrderStatusManager} {order_id : String} {today : Int}
    (reason : String) (hk : order_id ∈ knownIds)
    (hwin : ∀ d : Int, dget m.order_shipped order_id = some d → today - d ≤ 10)
    {s : String} {c : ℕ}
    (hpr : dget m.order_price order_id = some s)
    (hparse : parsePrice s = some ((c : ℚ) / 100)) :
    ∃ (n1 : String) (m1 : OrderStatusManager),
      initiate_return m today order_id reason = some (n1, m1) ∧
      dget m1.order_price order_id =
        some (format2 ((c : ℚ) / 100 - (c : ℚ) / 100 * (2 / 100))) ∧
      m1.order_shipped = m.order_shipped :=
  ⟨"Return initiated for order " ++ order_id ++ " due to: " ++ reason ++
      ". Price after penalty is " ++
      format2 ((c : ℚ) / 100 - (c : ℚ) / 100 * (2 / 100)) ++ ".",
    { m with
        order_statuses := dictSet m.order_statuses order_id "Return Initiated",
        order_price := dictSet m.order_price order_id
          (format2 ((c : ℚ) / 100 - (c : ℚ) / 100 * (2 / 100))) },
    by rw [initiate_return_in_window reason hk hwin, applyPenalty_spec reason hpr hparse],
    dget_dictSet_self _ _ _, rfl⟩

theorem compound_from_cents {c : ℕ} (hc : 27 ≤ c) {s order_id : String}
    (reason1 reason2 : String) {today : Int}
    (hk : order_id ∈ knownIds)
    (hwin : ∀ d : Int, dget initialManager.order_shipped order_id = some d →
      today - d ≤ 10)
    (hpr : dget initialManager.order_price order_id = some s)
    (hparse : parsePrice s = some ((c : ℚ) / 100)) :
    ∃ (n1 n2 s1 s2 : String) (p1 p2 : ℚ) (m1 m2 : OrderStatusManager),
      initiate_return initialManager today order_id reason1 = some (n1, m1) ∧
      initiate_return m1 today order_id reason2 = some (n2, m2) ∧
      dget m1.order_price order_id = some s1 ∧ parsePrice s1 = some p1 ∧
      dget m2.order_price order_id = some s2 ∧ parsePrice s2 = some p2 ∧
      p2 = round2 (98 / 100 * p1) ∧ p2 ≠ p1 := by
  obtain ⟨n1, m1, e1, hp1, hs1⟩ := initiate_step reason1 hk hwin hpr hparse
  have hwin1 : ∀ d : Int, dget m1.order_shipped order_id = some d → today - d ≤ 10 := by
    rw [hs1]
    exact hwin
  obtain ⟨n2, m2, e2, hp2, hs2⟩ :=
    initiate_step reason2 hk hwin1 hp1 (parse_format_newCents c)
  refine ⟨n1, n2, _, _, (newCents c : ℚ) / 100, (newCents (newCents c) : ℚ) / 100,
    m1, m2, e1, e2, hp1, parse_format_newCents c, hp2, parse_format_newCents (newCents c),
    (round2_penalty_eq_newCents (newCents c)).symm, ?_⟩
  intro he
  have hnat : newCents (newCents c) = newCents c := by
    field_simp at he
    exact_mod_cast he
  have hlt : newCents (newCents c) < newCents c := newCents_lt (newCents_gt_25 hc)
  omega

end Compounding

/-- C7: `initiate_return` is not idempotent on the seeded store — for every seeded
    order and any day inside its return window, two successive calls both succeed,
    the price after the second call is the 2-decimal rounding of 0.98 times the
    price after the first call, and it differs from the price after the first call. -/
theorem initiate_return_compounds_penalty (order_id reason1 reason2 : String)
    (today : Int) (hk : order_id ∈ knownIds)
    (hwin : ∀ d : Int, dget initialManager.order_shipped order_id = some d →
      today - d ≤ 10) :
    ∃ (n1 n2 s1 s2 : String) (p1 p2 : ℚ) (m1 m2 : OrderStatusManager),
      initiate_return initialManager today order_id reason1 = some (n1, m1) ∧
      initiate_return m1 today order_id reason2 = some (n2, m2) ∧
      dget m1.order_price order_id = some s1 ∧ parsePrice s1 = some p1 ∧
      dget m2.order_price order_id = some s2 ∧ parsePrice s2 = some p2 ∧
      p2 = round2 (98 / 100 * p1) ∧ p2 ≠ p1 := by
  have hk2 := hk
  simp only [knownIds, List.mem_cons, List.not_mem_nil, or_false] at hk2
  rcases hk2 with rfl | rfl | rfl
  · have hp : parsePrice "500$" = some (((50000 : ℕ) : ℚ) / 100) := by
      rw [show parsePrice "500$" = some ((500 : ℕ) : ℚ) from by decide]
      congr 1
      push_cast
      norm_num
    exact compound_from_cents (by norm_num) reason1 reason2 hk hwin (by decide) hp
  · have hp : parsePrice "79$" = some (((7900 : ℕ) : ℚ) / 100) := by
      rw [show parsePrice "79$" = some ((79 : ℕ) : ℚ) from by decide]
      congr 1
      push_cast
      norm_num
    exact compound_from_cents (by norm_num) reason1 reason2 hk hwin (by decide) hp
  · have hp : parsePrice "900$" = some (((90000 : ℕ) : ℚ) / 100) := by
      rw [show parsePrice "900$" = some ((900 : ℕ) : ℚ) from by decide]
      congr 1
      push_cast
      norm_num
    exact compound_from_cents (by norm_num) reason1 reason2 hk hwin (by decide) hp

/-- Witness for C7: order "67890" on day 56 (one day after its ship day 55). -/
theorem initiate_return_compounds_penalty_witness :
    ∃ (n1 n2 s1 s2 : String) (p1 p2 : ℚ) (m1 m2 : OrderStatusManager),
      initiate_return initialManager 56 "67890" "wrong item" = some (n1, m1) ∧
      initiate_return m1 56 "67890" "still wrong" = some (n2, m2) ∧
      dget m1.order_price "67890" = some s1 ∧ parsePrice s1 = some p1 ∧
      dget m2.order_price "67890" = some s2 ∧ parsePrice s2 = some p2 ∧
      p2 = round2 (98 / 100 * p1) ∧ p2 ≠ p1 := by
  refine initiate_return_compounds_penalty "67890" "wrong item" "still wrong" 56
    (by decide) ?_
  intro d hd
  rw [show dget initialManager.order_shipped "67890" = some (55 : Int) from by decide] at hd
  injection hd with h
  omega

/-- C1 (refuted by the code): `cancel_return` immediately after the successful
    `initiate_return` on order "67890" reports success but leaves the status at
    "Return Initiated" (pre-return value: "Processing") and the price at "77.42$"
    (pre-return value: "79$") — the state after the cancel equals the state after
    the return, not the state before it. -/
theorem cancel_after_return_does_not_restore :
    initiate_return initialManager 56 "67890" "wrong item" =
      some ("Return initiated for order 67890 due to: wrong item. Price after penalty is 77.42$.",
        managerAfter67890) ∧
    dget initialManager.order_statuses "67890" = some "Processing" ∧
    dget initialManager.order_price "67890" = some "79$" ∧
    cancel_return managerAfter67890 "67890" "changed mind" =
      ("Return cancellation initiated for order 67890 due to: changed mind. Price reset to 77.42$.",
       managerAfter67890) ∧
    dget managerAfter67890.order_statuses "67890" = some "Return Initiated" ∧
    dget managerAfter67890.order_price "67890" = some "77.42$" ∧
    managerAfter67890 ≠ initialManager := by
  refine ⟨initiate67890_eq, by decide, by decide, ?_, by decide, by decide, by decide⟩
  exact cancel_return_success "changed mind"
    (show dget managerAfter67890.order_statuses "67890" = some "Return Initiated" from
      by decide)
    (show dget managerAfter67890.order_price "67890" = some "77.42$" from by decide)
